import Mathlib

/-!
Verification of the navigation-completion watcher (`afterNextNavigation` in
`packages/router/src/utils/navigations.ts`), the server-context sanitizer
(`sanitizeServerContext` in `packages/platform-server/src/utils.ts`) and the
random app-id factory (`_appIdRandomProviderFactory` in
`packages/core/src/application_tokens.ts`), against their specification.

The rxjs pipeline of `afterNextNavigation` is embedded over a finite list of
events delivered in emission order; the pipeline
`filter(recognized) ∘ map(classify) ∘ filter(≠ REDIRECTING) ∘ take(1)` with a
subscription callback is modelled by a structural recursion that records, by
index, which events are classified (pass the first filter while the
subscription is live) and which event fires the callback (at which point
`take(1)` completes and the subscription is torn down).
-/

namespace StAngular

/-- Modelled from the spec: the closed set of cancellation codes of
`NavigationCancel` (`NavigationCancellationCode` in `packages/router/src/events.ts`,
not part of the excerpt): at least `Redirect` and `SupersededByNewNavigation`,
plus other codes representing genuine termination (guard rejection, no
matching route / no data from resolver). -/
inductive NavigationCancellationCode where
  | Redirect
  | SupersededByNewNavigation
  | NoDataFromResolver
  | GuardRejected
  deriving DecidableEq, Repr

/-- Modelled from the spec: navigation lifecycle events (the event classes of
`packages/router/src/events.ts`, not part of the excerpt) as a closed tagged
variant. `otherEvent` stands for any event kind other than the four the
watcher recognizes. Payloads other than the cancellation code are irrelevant
to the watcher and omitted. -/
inductive NavigationEvent where
  | NavigationEnd
  | NavigationCancel (code : NavigationCancellationCode)
  | NavigationError
  | NavigationSkipped
  | otherEvent
  deriving DecidableEq, Repr

open NavigationEvent NavigationCancellationCode

/-- The `NavigationResult` enum of `navigations.ts`. -/
inductive NavigationResult where
  | COMPLETE
  | FAILED
  | REDIRECTING
  deriving DecidableEq, Repr

open NavigationResult

/-- The first `filter` of the pipeline: the event is one of the four
recognized kinds (`e instanceof NavigationEnd || e instanceof NavigationCancel
|| e instanceof NavigationError || e instanceof NavigationSkipped`). -/
def recognized : NavigationEvent → Bool
  | NavigationEnd => true
  | NavigationCancel _ => true
  | NavigationError => true
  | NavigationSkipped => true
  | otherEvent => false

/-- The `map` of the pipeline: `NavigationEnd`/`NavigationSkipped` give
`COMPLETE`; a `NavigationCancel` whose code is `Redirect` or
`SupersededByNewNavigation` gives `REDIRECTING`; everything else gives
`FAILED`. -/
def classify : NavigationEvent → NavigationResult
  | NavigationEnd => COMPLETE
  | NavigationSkipped => COMPLETE
  | NavigationCancel code =>
      if code = Redirect ∨ code = SupersededByNewNavigation then REDIRECTING
      else FAILED
  | _ => FAILED

/-- An event passes the whole pipeline (recognized and classified to a
non-`REDIRECTING` result), hence triggers the callback when reached. -/
def triggers (e : NavigationEvent) : Bool :=
  recognized e && !(classify e = REDIRECTING : Bool)

/-- Operational run of the subscribed pipeline over a finite event sequence
delivered in emission order. Returns the pair `(classified, fired)` of
0-based index lists: `classified` are the indices of events that pass the
first filter and are classified while the subscription is live; `fired` are
the indices at which the callback is invoked. When an event triggers,
`take(1)` completes and unsubscribes, so no later event is delivered. -/
def runWatcher : List NavigationEvent → List Nat × List Nat
  | [] => ([], [])
  | e :: es =>
      if recognized e then
        if classify e = REDIRECTING then
          let r := runWatcher es
          (0 :: r.1.map (· + 1), r.2.map (· + 1))
        else
          ([0], [0])
      else
        let r := runWatcher es
        (r.1.map (· + 1), r.2.map (· + 1))

/-- Indices (in emission order, 0-based) of events classified by the watcher
during a run of `afterNextNavigation` over the sequence. -/
def classifiedIndices (es : List NavigationEvent) : List Nat :=
  (runWatcher es).1

/-- Indices at which `afterNextNavigation` invokes the `action` callback. -/
def fireIndices (es : List NavigationEvent) : List Nat :=
  (runWatcher es).2

/-- Number of callback invocations over the whole run. -/
def fireCount (es : List NavigationEvent) : Nat :=
  (fireIndices es).length

/-- The event that triggered the callback, when any did. -/
def triggeringEvent (es : List NavigationEvent) : Option NavigationEvent :=
  (fireIndices es).head?.bind fun i => es[i]?

/-! ### `packages/platform-server/src/utils.ts` -/

/-- `DEFAULT_SERVER_CONTEXT`: the value used if no server context value has
been provided. -/
def DEFAULT_SERVER_CONTEXT : String := "other"

/-- A character kept by the regex replacement
`serverContext.replace(/[^a-zA-Z0-9\-]/g, '')`: it matches `[a-zA-Z0-9-]`. -/
def isAllowedServerContextChar (c : Char) : Bool :=
  (decide ('a' ≤ c) && decide (c ≤ 'z')) ||
  (decide ('A' ≤ c) && decide (c ≤ 'Z')) ||
  (decide ('0' ≤ c) && decide (c ≤ '9')) ||
  (c = '-')

/-- `sanitizeServerContext`: removes all characters other than `a-z`, `A-Z`,
`0-9` and `-`, and returns `other` when the string is empty after
sanitization. -/
def sanitizeServerContext (serverContext : String) : String :=
  let context := String.mk (serverContext.data.filter isAllowedServerContextChar)
  if context.length > 0 then context else DEFAULT_SERVER_CONTEXT

/-! ### `packages/core/src/application_tokens.ts`

`Math.random()` returns a draw in `[0, 1)`; a run of the factory is modelled
by the three draws it consumes, as rationals. -/

/-- `_randomChar`: `String.fromCharCode(97 + Math.floor(Math.random() * 25))`,
with the draw made explicit. -/
def _randomChar (r : ℚ) : Char :=
  Char.ofNat (97 + (⌊r * 25⌋).toNat)

/-- `_appIdRandomProviderFactory`: the template string
`` `${_randomChar()}${_randomChar()}${_randomChar()}` ``, with the three
draws made explicit. -/
def _appIdRandomProviderFactory (r1 r2 r3 : ℚ) : String :=
  String.mk [_randomChar r1, _randomChar r2, _randomChar r3]

/-! ### Basic run lemmas for the watcher -/

lemma triggers_iff (e : NavigationEvent) :
    triggers e = true ↔ recognized e = true ∧ classify e ≠ REDIRECTING := by
  simp [triggers]

lemma runWatcher_cons_trigger (e : NavigationEvent) (es : List NavigationEvent)
    (h : triggers e = true) : runWatcher (e :: es) = ([0], [0]) := by
  rcases (triggers_iff e).mp h with ⟨h1, h2⟩
  simp [runWatcher, h1, h2]

lemma runWatcher_cons_redirect (e : NavigationEvent) (es : List NavigationEvent)
    (h1 : recognized e = true) (h2 : classify e = REDIRECTING) :
    runWatcher (e :: es) =
      (0 :: (runWatcher es).1.map (· + 1), (runWatcher es).2.map (· + 1)) := by
  simp [runWatcher, h1, h2]

lemma runWatcher_cons_skip (e : NavigationEvent) (es : List NavigationEvent)
    (h : recognized e = false) :
    runWatcher (e :: es) = ((runWatcher es).1.map (· + 1), (runWatcher es).2.map (· + 1)) := by
  simp [runWatcher, h]

lemma fireIndices_cons_trigger (e : NavigationEvent) (es : List NavigationEvent)
    (h : triggers e = true) : fireIndices (e :: es) = [0] := by
  simp [fireIndices, runWatcher_cons_trigger e es h]

lemma fireIndices_cons_no (e : NavigationEvent) (es : List NavigationEvent)
    (h : triggers e = false) : fireIndices (e :: es) = (fireIndices es).map (· + 1) := by
  cases hr : recognized e with
  | false => simp [fireIndices, runWatcher_cons_skip e es hr]
  | true =>
      have hc : classify e = REDIRECTING := by
        by_contra hc
        exact absurd ((triggers_iff e).mpr ⟨hr, hc⟩) (by simp [h])
      simp [fireIndices, runWatcher_cons_redirect e es hr hc]

lemma classifiedIndices_cons_trigger (e : NavigationEvent) (es : List NavigationEvent)
    (h : triggers e = true) : classifiedIndices (e :: es) = [0] := by
  simp [classifiedIndices, runWatcher_cons_trigger e es h]

lemma classifiedIndices_cons_redirect (e : NavigationEvent) (es : List NavigationEvent)
    (h1 : recognized e = true) (h2 : classify e = REDIRECTING) :
    classifiedIndices (e :: es) = 0 :: (classifiedIndices es).map (· + 1) := by
  simp [classifiedIndices, runWatcher_cons_redirect e es h1 h2]

lemma classifiedIndices_cons_skip (e : NavigationEvent) (es : List NavigationEvent)
    (h : recognized e = false) :
    classifiedIndices (e :: es) = (classifiedIndices es).map (· + 1) := by
  simp [classifiedIndices, runWatcher_cons_skip e es h]

lemma fireIndices_nil : fireIndices [] = [] := rfl

lemma fireIndices_length_le_one : ∀ es : List NavigationEvent, (fireIndices es).length ≤ 1 := by
  intro es
  induction es with
  | nil => simp [fireIndices_nil]
  | cons e es ih =>
      cases ht : triggers e with
      | true => simp [fireIndices_cons_trigger e es ht]
      | false => simpa [fireIndices_cons_no e es ht] using ih

lemma mem_fireIndices_triggers :
    ∀ (es : List NavigationEvent) (i : Nat), i ∈ fireIndices es →
      ∃ e, es[i]? = some e ∧ triggers e = true := by
  intro es
  induction es with
  | nil => intro i hi; simp [fireIndices_nil] at hi
  | cons e es ih =>
      intro i hi
      cases ht : triggers e with
      | true =>
          rw [fireIndices_cons_trigger e es ht] at hi
          simp at hi
          exact ⟨e, by simp [hi], ht⟩
      | false =>
          rw [fireIndices_cons_no e es ht] at hi
          simp at hi
          obtain ⟨j, hj, rfl⟩ := hi
          obtain ⟨e0, he0, he1⟩ := ih j hj
          exact ⟨e0, by simpa using he0, he1⟩

lemma mem_fireIndices_least :
    ∀ (es : List NavigationEvent) (i : Nat), i ∈ fireIndices es →
      ∀ j, j < i → ∀ e, es[j]? = some e → triggers e = false := by
  intro es
  induction es with
  | nil => intro i hi; simp [fireIndices_nil] at hi
  | cons e es ih =>
      intro i hi j hj e0 he0
      cases ht : triggers e with
      | true =>
          rw [fireIndices_cons_trigger e es ht] at hi
          simp at hi
          omega
      | false =>
          rw [fireIndices_cons_no e es ht] at hi
          simp at hi
          obtain ⟨k, hk, rfl⟩ := hi
          cases j with
          | zero =>
              simp at he0
              subst he0
              exact ht
          | succ j =>
              simp at he0
              exact ih k hk j (by omega) e0 he0

lemma mem_classifiedIndices_le_fire :
    ∀ (es : List NavigationEvent) (i : Nat), i ∈ fireIndices es →
      ∀ k ∈ classifiedIndices es, k ≤ i := by
  intro es
  induction es with
  | nil => intro i hi; simp [fireIndices_nil] at hi
  | cons e es ih =>
      intro i hi k hk
      cases ht : triggers e with
      | true =>
          rw [fireIndices_cons_trigger e es ht] at hi
          rw [classifiedIndices_cons_trigger e es ht] at hk
          simp at hi hk
          omega
      | false =>
          rw [fireIndices_cons_no e es ht] at hi
          simp at hi
          obtain ⟨j, hj, rfl⟩ := hi
          cases hr : recognized e with
          | false =>
              rw [classifiedIndices_cons_skip e es hr] at hk
              simp at hk
              obtain ⟨m, hm, rfl⟩ := hk
              have := ih j hj m hm
              omega
          | true =>
              have hc : classify e = REDIRECTING := by
                by_contra hc
                exact absurd ((triggers_iff e).mpr ⟨hr, hc⟩) (by simp [ht])
              rw [classifiedIndices_cons_redirect e es hr hc] at hk
              simp at hk
              rcases hk with rfl | ⟨m, hm, rfl⟩
              · omega
              · have := ih j hj m hm
                omega

lemma fireIndices_append_no (rs es : List NavigationEvent)
    (h : ∀ e ∈ rs, triggers e = false) :
    fireIndices (rs ++ es) = (fireIndices es).map (· + rs.length) := by
  induction rs with
  | nil => simp
  | cons r rs ih =>
      have hr : triggers r = false := h r (by simp)
      have ih2 := ih (fun e he => h e (by simp [he]))
      rw [List.cons_append, fireIndices_cons_no r (rs ++ es) hr, ih2, List.map_map]
      refine List.map_congr_left fun a _ => ?_
      simp [Function.comp]
      omega

lemma fireCount_cons_trigger (e : NavigationEvent) (es : List NavigationEvent)
    (h : triggers e = true) : fireCount (e :: es) = 1 := by
  simp [fireCount, fireIndices_cons_trigger e es h]

lemma fireCount_cons_no (e : NavigationEvent) (es : List NavigationEvent)
    (h : triggers e = false) : fireCount (e :: es) = fireCount es := by
  simp [fireCount, fireIndices_cons_no e es h]

lemma triggeringEvent_cons_trigger (e : NavigationEvent) (es : List NavigationEvent)
    (h : triggers e = true) : triggeringEvent (e :: es) = some e := by
  simp [triggeringEvent, fireIndices_cons_trigger e es h]

lemma triggeringEvent_cons_no (e : NavigationEvent) (es : List NavigationEvent)
    (h : triggers e = false) : triggeringEvent (e :: es) = triggeringEvent es := by
  rw [triggeringEvent, triggeringEvent, fireIndices_cons_no e es h, List.head?_map]
  cases ho : (fireIndices es).head? with
  | none => simp
  | some i => simp

lemma fireIndices_nil_of_no_trigger :
    ∀ es : List NavigationEvent, (∀ e ∈ es, triggers e = false) → fireIndices es = [] := by
  intro es
  induction es with
  | nil => intro _; rfl
  | cons e es ih =>
      intro h
      rw [fireIndices_cons_no e es (h e (by simp)), ih (fun x hx => h x (by simp [hx]))]
      rfl

/-! ### Claim theorems -/

/-- Claim C1: for any finite sequence whose single terminal-classified event
is preceded by any number of `Redirecting`-classified events, the callback of
`afterNextNavigation` fires exactly once, at (after) the terminal event and
at no earlier event. -/
theorem afterNextNavigation_exactly_once_after_terminal
    (rs rest : List NavigationEvent) (t : NavigationEvent)
    (hr : ∀ e ∈ rs, recognized e = true ∧ classify e = REDIRECTING)
    (ht1 : recognized t = true) (ht2 : classify t ≠ REDIRECTING) :
    fireIndices (rs ++ t :: rest) = [rs.length] := by
  have hno : ∀ e ∈ rs, triggers e = false := by
    intro e he
    rcases hr e he with ⟨_, h2⟩
    simp [triggers, h2]
  rw [fireIndices_append_no rs (t :: rest) hno,
    fireIndices_cons_trigger t rest ((triggers_iff t).mpr ⟨ht1, ht2⟩)]
  simp

/-- Witness for C1: one redirecting cancellation followed by `NavigationEnd`
fires exactly once, at index 1. -/
theorem afterNextNavigation_exactly_once_after_terminal_witness :
    fireIndices [NavigationCancel Redirect, NavigationEnd] = [1] := by
  have h := afterNextNavigation_exactly_once_after_terminal
    [NavigationCancel Redirect] [] NavigationEnd (by decide) (by decide) (by decide)
  simpa using h

/-- Claim C2: the classification maps `NavigationEnd` and `NavigationSkipped`
to `COMPLETE`, `NavigationCancel` with code `Redirect` or
`SupersededByNewNavigation` to `REDIRECTING`, `NavigationCancel` with any
other code and `NavigationError` to `FAILED`; and the sequence
`[NavigationSkipped]` yields exactly one callback invocation. -/
theorem classify_outcomes :
    classify NavigationEnd = COMPLETE ∧
    classify NavigationSkipped = COMPLETE ∧
    classify (NavigationCancel Redirect) = REDIRECTING ∧
    classify (NavigationCancel SupersededByNewNavigation) = REDIRECTING ∧
    (∀ c : NavigationCancellationCode,
        c ≠ Redirect → c ≠ SupersededByNewNavigation →
        classify (NavigationCancel c) = FAILED) ∧
    classify NavigationError = FAILED ∧
    fireIndices [NavigationSkipped] = [0] := by
  refine ⟨rfl, rfl, by decide, by decide, ?_, rfl, by decide⟩
  intro c h1 h2
  cases c with
  | Redirect => exact absurd rfl h1
  | SupersededByNewNavigation => exact absurd rfl h2
  | NoDataFromResolver => decide
  | GuardRejected => decide

/-- Witness for C2: a guard-rejected cancellation classifies as `FAILED`. -/
theorem classify_outcomes_witness :
    classify (NavigationCancel GuardRejected) = FAILED :=
  classify_outcomes.2.2.2.2.1 GuardRejected (by decide) (by decide)

/-- Claim C3: a `NavigationCancel` with code `Redirect` or
`SupersededByNewNavigation` never fires the callback and never terminates the
subscription — at the head of any sequence, it is classified and the rest of
the run continues unchanged (shifted by one); and
`[Cancelled Redirect, Cancelled SupersededByNewNavigation, NavigationEnd]`
fires exactly once, after the third event. -/
theorem redirecting_never_fires_never_unsubscribes :
    (∀ (es : List NavigationEvent) (i : Nat) (c : NavigationCancellationCode),
        es[i]? = some (NavigationCancel c) →
        (c = Redirect ∨ c = SupersededByNewNavigation) →
        i ∉ fireIndices es) ∧
    (∀ (c : NavigationCancellationCode) (es : List NavigationEvent),
        (c = Redirect ∨ c = SupersededByNewNavigation) →
        fireIndices (NavigationCancel c :: es) = (fireIndices es).map (· + 1) ∧
        classifiedIndices (NavigationCancel c :: es) =
          0 :: (classifiedIndices es).map (· + 1)) ∧
    fireIndices [NavigationCancel Redirect, NavigationCancel SupersededByNewNavigation,
      NavigationEnd] = [2] := by
  refine ⟨?_, ?_, by decide⟩
  · intro es i c hei hc hmem
    obtain ⟨e, he, ht⟩ := mem_fireIndices_triggers es i hmem
    rw [hei] at he
    cases he
    rcases hc with rfl | rfl <;> simp [triggers, classify] at ht
  · intro c es hc
    have h1 : recognized (NavigationCancel c) = true := rfl
    have h2 : classify (NavigationCancel c) = REDIRECTING := by
      rcases hc with rfl | rfl <;> decide
    have ht : triggers (NavigationCancel c) = false := by simp [triggers, h2]
    exact ⟨fireIndices_cons_no _ es ht, classifiedIndices_cons_redirect _ es h1 h2⟩

/-- Witness for C3: a redirect cancellation at index 0 does not fire, and at
the head of a sequence it shifts the rest of the run by one. -/
theorem redirecting_never_fires_never_unsubscribes_witness :
    0 ∉ fireIndices [NavigationCancel Redirect, NavigationEnd] ∧
    fireIndices [NavigationCancel Redirect, NavigationEnd] =
      (fireIndices [NavigationEnd]).map (· + 1) ∧
    classifiedIndices [NavigationCancel Redirect, NavigationEnd] =
      0 :: (classifiedIndices [NavigationEnd]).map (· + 1) :=
  ⟨redirecting_never_fires_never_unsubscribes.1 _ 0 Redirect (by decide) (Or.inl rfl),
   (redirecting_never_fires_never_unsubscribes.2.1 Redirect [NavigationEnd] (Or.inl rfl)).1,
   (redirecting_never_fires_never_unsubscribes.2.1 Redirect [NavigationEnd] (Or.inl rfl)).2⟩

/-- Claim C4: the callback fires at most once, and when it fires at index `i`
then the event there triggers, every earlier event does not trigger (the
first terminal in emission order wins), and no event after `i` is classified
(the subscription is already torn down). -/
theorem first_terminal_wins :
    (∀ es : List NavigationEvent, (fireIndices es).length ≤ 1) ∧
    (∀ (es : List NavigationEvent) (i : Nat), i ∈ fireIndices es →
        (∃ e, es[i]? = some e ∧ triggers e = true) ∧
        (∀ j, j < i → ∀ e, es[j]? = some e → triggers e = false) ∧
        (∀ k ∈ classifiedIndices es, k ≤ i)) := by
  refine ⟨fireIndices_length_le_one, ?_⟩
  intro es i hi
  exact ⟨mem_fireIndices_triggers es i hi, mem_fireIndices_least es i hi,
    mem_classifiedIndices_le_fire es i hi⟩

/-- Witness for C4: in `[Cancelled Redirect, NavigationEnd, NavigationError]`
the callback fires at index 1, the earliest terminal, and nothing beyond
index 1 is classified. -/
theorem first_terminal_wins_witness :
    (∃ e, [NavigationCancel Redirect, NavigationEnd, NavigationError][1]? = some e ∧
      triggers e = true) ∧
    (∀ j, j < 1 → ∀ e,
      [NavigationCancel Redirect, NavigationEnd, NavigationError][j]? = some e →
      triggers e = false) ∧
    (∀ k ∈ classifiedIndices [NavigationCancel Redirect, NavigationEnd, NavigationError],
      k ≤ 1) :=
  first_terminal_wins.2 [NavigationCancel Redirect, NavigationEnd, NavigationError] 1
    (by decide)

/-- Claim C5: if the source closes without ever producing a triggering
(`COMPLETE`/`FAILED`) classification — only redirecting or unrecognized
events, or no events at all — the callback is never invoked. -/
theorem no_terminal_no_callback :
    (∀ es : List NavigationEvent, (∀ e ∈ es, triggers e = false) →
        fireIndices es = [] ∧ fireCount es = 0) ∧
    fireIndices ([] : List NavigationEvent) = [] := by
  refine ⟨?_, rfl⟩
  intro es h
  have hnil := fireIndices_nil_of_no_trigger es h
  exact ⟨hnil, by simp [fireCount, hnil]⟩

/-- Witness for C5: two redirecting cancellations followed by source closure
yield zero callback invocations. -/
theorem no_terminal_no_callback_witness :
    fireIndices [NavigationCancel Redirect, NavigationCancel SupersededByNewNavigation] = [] ∧
    fireCount [NavigationCancel Redirect, NavigationCancel SupersededByNewNavigation] = 0 :=
  no_terminal_no_callback.1
    [NavigationCancel Redirect, NavigationCancel SupersededByNewNavigation] (by decide)

/-- Claim C6: an unrecognized event is ignored entirely — at the head of any
sequence it is not classified and shifts the rest of the run by one, and
inserting it anywhere changes neither the number of callback invocations nor
the triggering event; `[otherEvent, NavigationEnd]` fires exactly once,
triggered by `NavigationEnd`. -/
theorem unknown_events_ignored :
    (∀ (u : NavigationEvent) (es : List NavigationEvent), recognized u = false →
        fireIndices (u :: es) = (fireIndices es).map (· + 1) ∧
        classifiedIndices (u :: es) = (classifiedIndices es).map (· + 1)) ∧
    (∀ (pre post : List NavigationEvent) (u : NavigationEvent), recognized u = false →
        fireCount (pre ++ u :: post) = fireCount (pre ++ post) ∧
        triggeringEvent (pre ++ u :: post) = triggeringEvent (pre ++ post)) ∧
    fireIndices [otherEvent, NavigationEnd] = [1] ∧
    triggeringEvent [otherEvent, NavigationEnd] = some NavigationEnd := by
  have hins : ∀ (pre post : List NavigationEvent) (u : NavigationEvent),
      recognized u = false →
      fireCount (pre ++ u :: post) = fireCount (pre ++ post) ∧
      triggeringEvent (pre ++ u :: post) = triggeringEvent (pre ++ post) := by
    intro pre
    induction pre with
    | nil =>
        intro post u hu
        have ht : triggers u = false := by simp [triggers, hu]
        simp only [List.nil_append]
        exact ⟨fireCount_cons_no u post ht, triggeringEvent_cons_no u post ht⟩
    | cons p pre ih =>
        intro post u hu
        obtain ⟨ih1, ih2⟩ := ih post u hu
        cases ht : triggers p with
        | true =>
            simp only [List.cons_append]
            rw [fireCount_cons_trigger p _ ht, fireCount_cons_trigger p _ ht,
              triggeringEvent_cons_trigger p _ ht, triggeringEvent_cons_trigger p _ ht]
            exact ⟨rfl, rfl⟩
        | false =>
            simp only [List.cons_append]
            rw [fireCount_cons_no p _ ht, fireCount_cons_no p _ ht,
              triggeringEvent_cons_no p _ ht, triggeringEvent_cons_no p _ ht]
            exact ⟨ih1, ih2⟩
  refine ⟨?_, hins, by decide, by decide⟩
  intro u es hu
  have ht : triggers u = false := by simp [triggers, hu]
  exact ⟨fireIndices_cons_no u es ht, classifiedIndices_cons_skip u es hu⟩

/-- Witness for C6: an unknown event at the head shifts the run by one, and
inserting one between two recognized events preserves the invocation count. -/
theorem unknown_events_ignored_witness :
    fireIndices [otherEvent, NavigationEnd] = (fireIndices [NavigationEnd]).map (· + 1) ∧
    fireCount ([NavigationCancel Redirect] ++ otherEvent :: [NavigationEnd]) =
      fireCount ([NavigationCancel Redirect] ++ [NavigationEnd]) :=
  ⟨(unknown_events_ignored.1 otherEvent [NavigationEnd] rfl).1,
   (unknown_events_ignored.2.1 [NavigationCancel Redirect] [NavigationEnd] otherEvent rfl).1⟩

/-- Claim C7: the watcher recognizes no error state of its own — every event
(of any kind, with any cancellation code) falls into exactly one of three
total dispositions: silently dropped by the first filter, classified
`REDIRECTING` and skipped, or classified terminal and firing. -/
theorem watcher_never_errors :
    (∀ e : NavigationEvent,
        recognized e = false ∨ (recognized e = true ∧ classify e = REDIRECTING) ∨
        (recognized e = true ∧ classify e ≠ REDIRECTING)) ∧
    (∀ (e : NavigationEvent) (es : List NavigationEvent),
        (recognized e = false → fireIndices (e :: es) = (fireIndices es).map (· + 1)) ∧
        (recognized e = true → classify e = REDIRECTING →
          fireIndices (e :: es) = (fireIndices es).map (· + 1) ∧
          classifiedIndices (e :: es) = 0 :: (classifiedIndices es).map (· + 1)) ∧
        (recognized e = true → classify e ≠ REDIRECTING →
          fireIndices (e :: es) = [0])) := by
  constructor
  · intro e
    by_cases h1 : recognized e = true
    · by_cases h2 : classify e = REDIRECTING
      · exact Or.inr (Or.inl ⟨h1, h2⟩)
      · exact Or.inr (Or.inr ⟨h1, h2⟩)
    · exact Or.inl (by simpa using h1)
  · intro e es
    refine ⟨fun h => ?_, fun h1 h2 => ?_, fun h1 h2 => ?_⟩
    · exact fireIndices_cons_no e es (by simp [triggers, h])
    · exact ⟨fireIndices_cons_no e es (by simp [triggers, h2]),
        classifiedIndices_cons_redirect e es h1 h2⟩
    · exact fireIndices_cons_trigger e es ((triggers_iff e).mpr ⟨h1, h2⟩)

/-- Witness for C7: the unknown-event and terminal dispositions at concrete
inputs. -/
theorem watcher_never_errors_witness :
    fireIndices [otherEvent] = (fireIndices ([] : List NavigationEvent)).map (· + 1) ∧
    fireIndices [NavigationCancel GuardRejected] = [0] :=
  ⟨(watcher_never_errors.2 otherEvent []).1 rfl,
   (watcher_never_errors.2 (NavigationCancel GuardRejected) []).2.2 rfl (by decide)⟩

/-- Claim C8: the watcher's observable behavior (fire positions, classified
positions, invocation count, triggering event) is a deterministic function of
the event sequence alone; in particular the invocation count is exactly
`min 1 (number of triggering events)`. -/
theorem watcher_deterministic :
    (∀ es1 es2 : List NavigationEvent, es1 = es2 →
        fireIndices es1 = fireIndices es2 ∧
        classifiedIndices es1 = classifiedIndices es2 ∧
        fireCount es1 = fireCount es2 ∧
        triggeringEvent es1 = triggeringEvent es2) ∧
    (∀ es : List NavigationEvent, fireCount es = min 1 (es.countP triggers)) := by
  constructor
  · rintro es1 es2 rfl
    exact ⟨rfl, rfl, rfl, rfl⟩
  · intro es
    induction es with
    | nil => simp [fireCount, fireIndices_nil]
    | cons e es ih =>
        cases ht : triggers e with
        | true =>
            rw [fireCount_cons_trigger e es ht]
            simp [List.countP_cons, ht]
        | false =>
            rw [fireCount_cons_no e es ht, ih]
            simp [List.countP_cons, ht]

/-- Witness for C8: determinism instantiated at a concrete sequence. -/
theorem watcher_deterministic_witness :
    fireIndices [NavigationSkipped] = fireIndices [NavigationSkipped] ∧
    classifiedIndices [NavigationSkipped] = classifiedIndices [NavigationSkipped] ∧
    fireCount [NavigationSkipped] = fireCount [NavigationSkipped] ∧
    triggeringEvent [NavigationSkipped] = triggeringEvent [NavigationSkipped] :=
  watcher_deterministic.1 [NavigationSkipped] [NavigationSkipped] rfl

/-- Claim C9: `sanitizeServerContext` always returns a non-empty string of
characters from `[a-zA-Z0-9-]`, returns exactly `other` when the input has no
such characters (the empty string included), and is idempotent. -/
theorem sanitizeServerContext_spec :
    (∀ s : String,
        0 < (sanitizeServerContext s).length ∧
        (∀ c ∈ (sanitizeServerContext s).data, isAllowedServerContextChar c = true) ∧
        sanitizeServerContext (sanitizeServerContext s) = sanitizeServerContext s) ∧
    (∀ s : String, (∀ c ∈ s.data, isAllowedServerContextChar c = false) →
        sanitizeServerContext s = DEFAULT_SERVER_CONTEXT) ∧
    sanitizeServerContext "" = "other" := by
  have hval : ∀ s : String, sanitizeServerContext s =
      if 0 < (s.data.filter isAllowedServerContextChar).length then
        String.mk (s.data.filter isAllowedServerContextChar)
      else DEFAULT_SERVER_CONTEXT := fun s => rfl
  refine ⟨?_, ?_, by decide⟩
  · intro s
    by_cases hl : s.data.filter isAllowedServerContextChar = []
    · have hs : sanitizeServerContext s = DEFAULT_SERVER_CONTEXT := by
        rw [hval s, hl]
        simp
      rw [hs]
      exact ⟨by decide, by decide, by decide⟩
    · have hpos : 0 < (s.data.filter isAllowedServerContextChar).length :=
        List.length_pos.mpr hl
      have hs : sanitizeServerContext s =
          String.mk (s.data.filter isAllowedServerContextChar) := by
        rw [hval s, if_pos hpos]
      rw [hs]
      refine ⟨hpos, ?_, ?_⟩
      · intro c hc
        exact (List.mem_filter.mp hc).2
      · have hfix : (String.mk (s.data.filter isAllowedServerContextChar)).data.filter
            isAllowedServerContextChar = s.data.filter isAllowedServerContextChar :=
          List.filter_eq_self.mpr (fun a ha => (List.mem_filter.mp ha).2)
        rw [hval (String.mk (s.data.filter isAllowedServerContextChar)), hfix, if_pos hpos]
  · intro s h
    have hl : s.data.filter isAllowedServerContextChar = [] :=
      List.filter_eq_nil_iff.mpr (fun a ha => by simp [h a ha])
    rw [hval s, hl]
    simp

/-- Witness for C9: the non-empty/allowed-character/idempotence part at
`"a b!c"` and the default at an input with no allowed characters. -/
theorem sanitizeServerContext_spec_witness :
    0 < (sanitizeServerContext "a b!c").length ∧
    (∀ c ∈ (sanitizeServerContext "a b!c").data, isAllowedServerContextChar c = true) ∧
    sanitizeServerContext (sanitizeServerContext "a b!c") = sanitizeServerContext "a b!c" ∧
    sanitizeServerContext "@!?" = DEFAULT_SERVER_CONTEXT :=
  ⟨(sanitizeServerContext_spec.1 "a b!c").1,
   (sanitizeServerContext_spec.1 "a b!c").2.1,
   (sanitizeServerContext_spec.1 "a b!c").2.2,
   sanitizeServerContext_spec.2.1 "@!?" (by decide)⟩

lemma _randomChar_bounds (r : ℚ) (_h0 : 0 ≤ r) (h1 : r < 1) :
    'a' ≤ _randomChar r ∧ _randomChar r ≤ 'y' := by
  have h25 : r * 25 < 25 := by nlinarith
  have hfl : ⌊r * 25⌋ < 25 := Int.floor_lt.mpr (by exact_mod_cast h25)
  have hk : (⌊r * 25⌋).toNat ≤ 24 := by omega
  unfold _randomChar
  generalize (⌊r * 25⌋).toNat = k at hk ⊢
  interval_cases k <;> exact ⟨by decide, by decide⟩

/-- Claim C10: for draws in `[0, 1)`, `_appIdRandomProviderFactory` returns a
string of exactly three characters, each in the range `a`–`y`; the character
`z` can never occur. -/
theorem appId_three_chars_a_to_y (r1 r2 r3 : ℚ)
    (h1 : 0 ≤ r1 ∧ r1 < 1) (h2 : 0 ≤ r2 ∧ r2 < 1) (h3 : 0 ≤ r3 ∧ r3 < 1) :
    (_appIdRandomProviderFactory r1 r2 r3).length = 3 ∧
    ∀ c ∈ (_appIdRandomProviderFactory r1 r2 r3).data,
      'a' ≤ c ∧ c ≤ 'y' ∧ c ≠ 'z' := by
  have b1 := _randomChar_bounds r1 h1.1 h1.2
  have b2 := _randomChar_bounds r2 h2.1 h2.2
  have b3 := _randomChar_bounds r3 h3.1 h3.2
  refine ⟨rfl, ?_⟩
  have hz : ∀ c : Char, c ≤ 'y' → c ≠ 'z' := by
    intro c hc hzc
    rw [hzc] at hc
    exact absurd hc (by decide)
  intro c hc
  have hcm : c = _randomChar r1 ∨ c = _randomChar r2 ∨ c = _randomChar r3 := by
    simpa [_appIdRandomProviderFactory] using hc
  rcases hcm with rfl | rfl | rfl
  · exact ⟨b1.1, b1.2, hz _ b1.2⟩
  · exact ⟨b2.1, b2.2, hz _ b2.2⟩
  · exact ⟨b3.1, b3.2, hz _ b3.2⟩

/-- Witness for C10: the factory at three zero draws. -/
theorem appId_three_chars_a_to_y_witness :
    (_appIdRandomProviderFactory 0 0 0).length = 3 ∧
    ∀ c ∈ (_appIdRandomProviderFactory 0 0 0).data, 'a' ≤ c ∧ c ≤ 'y' ∧ c ≠ 'z' :=
  appId_three_chars_a_to_y 0 0 0 ⟨le_refl 0, zero_lt_one⟩ ⟨le_refl 0, zero_lt_one⟩
    ⟨le_refl 0, zero_lt_one⟩

end StAngular
